import Mathlib

/-! Verification of the MD5 collision overlay/patching core.

Shallow embedding of the repository's byte-level operations: byte strings are
`List Nat` (each element a byte value), Python's `bytes`/`bytearray` primitives
are modelled as explicit list functions, fallible code returns `Except`, and
the MD5 hash (used by the repository through `hashlib`) is embedded concretely
from RFC 1321 with `Nat` arithmetic mod `2 ^ 32`. -/

deriving instance DecidableEq for Except

namespace MD5Repo

/-- ASCII byte list denoted by a Lean string literal. -/
def ascii (s : String) : List Nat := s.toList.map Char.toNat

/-! ## Python byte-string primitives -/

/-- First index at which `pat` occurs in `hay` (Python `hay.find(pat)`, with
`none` for the `-1` case). -/
def findSub (hay pat : List Nat) : Option Nat :=
  if pat.isPrefixOf hay then some 0
  else
    match hay with
    | [] => none
    | _ :: t => (findSub t pat).map (· + 1)

/-- Python `hay.find(pat, start)`: first occurrence at index `start` or later,
`-1` when absent. -/
def pyFind (hay pat : List Nat) (start : Nat) : Int :=
  match findSub (hay.drop start) pat with
  | some k => ((start + k : Nat) : Int)
  | none => -1

/-- Python slice-endpoint normalization: clamp `i` into `[0, len]`, counting
from the end when negative. -/
def pyIdx (len : Nat) (i : Int) : Nat :=
  if i < 0 then len - (-i).toNat else min i.toNat len

/-- Python `l[:b]` for an arbitrary (possibly negative) endpoint. -/
def pyTake (l : List Nat) (b : Int) : List Nat := l.take (pyIdx l.length b)

/-- Python `l[a:]` for an arbitrary (possibly negative) start. -/
def pyDrop (l : List Nat) (a : Int) : List Nat := l.drop (pyIdx l.length a)

/-- Helper for `pySplitlines`: `cur` holds the bytes of the current line in
reverse. -/
def splitlinesGo (cur : List Nat) : List Nat → List (List Nat)
  | [] => if cur.isEmpty then [] else [cur.reverse]
  | 13 :: 10 :: rest => cur.reverse :: splitlinesGo [] rest
  | 13 :: rest => cur.reverse :: splitlinesGo [] rest
  | 10 :: rest => cur.reverse :: splitlinesGo [] rest
  | c :: rest => splitlinesGo (c :: cur) rest

/-- Python `bytes.splitlines()`: split at LF, CR or CRLF, no trailing empty
line. -/
def pySplitlines (l : List Nat) : List (List Nat) := splitlinesGo [] l

/-- Python `b.split(sep)` for a single-byte separator `sep`. -/
def splitByte (sep : Nat) : List Nat → List (List Nat)
  | [] => [[]]
  | c :: rest =>
    match splitByte sep rest with
    | [] => [[]]
    | r :: rs => if c = sep then [] :: r :: rs else (c :: r) :: rs

/-- Accumulate the value of a run of ASCII digits; `none` on a non-digit. -/
def digitsVal : List Nat → Nat → Option Nat
  | [], acc => some acc
  | c :: rest, acc =>
    if 48 ≤ c ∧ c ≤ 57 then digitsVal rest (acc * 10 + (c - 48)) else none

/-- Python `int()` on an ASCII byte string: surrounding spaces allowed, the
rest must be a nonempty digit run (the repository only parses nonnegative
counts). -/
def pyInt (l : List Nat) : Option Nat :=
  let t := ((l.dropWhile (· = 32)).reverse.dropWhile (· = 32)).reverse
  match t with
  | [] => none
  | _ => digitsVal t 0

/-- Digit expansion of a positive number, most significant first; the first
argument is recursion fuel (`fuel ≥ n` suffices). -/
def decDigitsGo : Nat → Nat → List Nat
  | 0, _ => []
  | _ + 1, 0 => []
  | fuel + 1, n + 1 => decDigitsGo fuel ((n + 1) / 10) ++ [48 + (n + 1) % 10]

/-- Decimal ASCII representation of `n` (Python `b"%d" % n` for `n ≥ 0`). -/
def decRep (n : Nat) : List Nat :=
  if n = 0 then [48] else decDigitsGo n n

/-- Zero-pad an ASCII digit string to width 10 (Python `b"%010i" % n` for
nonnegative `n`). -/
def pad10 (l : List Nat) : List Nat := List.replicate (10 - l.length) 48 ++ l

/-! ## `overlay_cpc_into_tbs.py`: `find_payload` and `overlay` -/

/-- The marker OID 1.2.3.4.5.6.7.8 in DER, from `overlay_cpc_into_tbs.py`. -/
def OID : List Nat := [6, 7, 42, 3, 4, 5, 6, 7, 8]

/-- Failure modes of `find_payload`: the two explicit `RuntimeError`s for a
missing OID and a wrong tag, the `"Unexpected length form"` error, and the
implicit Python `IndexError` on a truncated buffer. -/
inductive FindErr where
  | oidNotFound
  | tagMismatch
  | unsupportedLengthForm
  | indexError
deriving DecidableEq

/-- Python `buf[i]` on bytes: the byte, or an `IndexError` out of range. -/
def byteAt (buf : List Nat) (i : Nat) : Except FindErr Nat :=
  match buf.drop i with
  | [] => .error .indexError
  | c :: _ => .ok c

/-- Embedding of `find_payload` from `overlay_cpc_into_tbs.py`: locate the OID,
require an OCTET STRING tag right after it, decode a short-form length or a
long-form length with exactly two length bytes, and return
`(payload_start, payload_len)`. -/
def find_payload (buf : List Nat) : Except FindErr (Nat × Nat) :=
  match findSub buf OID with
  | none => .error .oidNotFound
  | some i =>
    let j := i + OID.length
    match byteAt buf j with
    | .error e => .error e
    | .ok tag =>
      if tag ≠ 4 then .error .tagMismatch
      else
        match byteAt buf (j + 1) with
        | .error e => .error e
        | .ok l1 =>
          if l1 &&& 128 ≠ 0 then
            if l1 &&& 127 = 2 then
              match byteAt buf (j + 2), byteAt buf (j + 3) with
              | .ok b2, .ok b3 => .ok (j + 4, b2 * 256 + b3)
              | .error e, _ => .error e
              | _, .error e => .error e
            else .error .unsupportedLengthForm
          else .ok (j + 2, l1)

/-- Failure modes of `overlay`: a format error from `find_payload`, or the
`"Linking block too large"` error carrying actual versus maximum size. -/
inductive OvErr where
  | fmt (e : FindErr)
  | payloadTooLarge (actual : Nat) (maxLen : Int)
deriving DecidableEq

/-- Python bytearray slice assignment `tbs[off:off+len(S)] = S`. -/
def setSlice (tbs : List Nat) (off : Nat) (S : List Nat) : List Nat :=
  tbs.take off ++ S ++ tbs.drop (off + S.length)

/-- Embedding of `overlay` from `overlay_cpc_into_tbs.py` (the byte
transformation between the file reads and the file write): locate the payload,
reject a linking block larger than `payload_len - prefix_len`, otherwise
splice `S` in right after the `plen`-byte textual prefix. -/
def overlay (tbs : List Nat) (plen : Nat) (S : List Nat) :
    Except OvErr (List Nat) :=
  match find_payload tbs with
  | .error e => .error (.fmt e)
  | .ok (ps, L) =>
    let maxLen : Int := (L : Int) - (plen : Int)
    if (S.length : Int) > maxLen then .error (.payloadTooLarge S.length maxLen)
    else .ok (setSlice tbs (ps + plen) S)

/-! ## `pdf.py`: `adjustPDF` -/

/-- Failure modes of `adjustPDF`: the implicit Python `IndexError` /
`ValueError` raised while parsing the object count (the caught
`AssertionError` on a length mismatch is NOT a failure mode: the source only
prints and proceeds). -/
inductive RepErr where
  | indexError
  | valueError
deriving DecidableEq

/-- The scan start `startXREF = contents.find(b"\nxref\n0 ") + 1` from
`adjustPDF`. -/
def xrefStart (contents : List Nat) : Nat :=
  match findSub contents (ascii "\nxref\n0 ") with
  | some k => k + 1
  | none => 0

/-- The scan end `endXREF = contents.find(b" \n\n", startXREF) + 1` from
`adjustPDF`. -/
def xrefEnd (contents : List Nat) : Nat :=
  match findSub (contents.drop (xrefStart contents)) (ascii " \n\n") with
  | some k => xrefStart contents + k + 1
  | none => 0

/-- The slice `origXref = contents[startXREF:endXREF]` from `adjustPDF`. -/
def origXref (contents : List Nat) : List Nat :=
  (contents.take (xrefEnd contents)).drop (xrefStart contents)

/-- The parse `objCount = int(origXref.splitlines()[1].split(b" ")[1])` from
`adjustPDF`, with Python's `IndexError` / `ValueError` made explicit. -/
def parseObjCount (contents : List Nat) : Except RepErr Nat :=
  match pySplitlines (origXref contents) with
  | _ :: line1 :: _ =>
    match splitByte 32 line1 with
    | _ :: w1 :: _ =>
      match pyInt w1 with
      | some n => .ok n
      | none => .error .valueError
    | _ => .error .indexError
  | _ => .error .indexError

/-- The object token `b"\n%i 0 obj\n" % i` searched for by `adjustPDF`. -/
def objToken (i : Nat) : List Nat := 10 :: (decRep i ++ ascii " 0 obj" ++ [10])

/-- The recorded offset `off = contents.find(b"\n%i 0 obj\n" % i) + 1` from
`adjustPDF` (an absent token gives `-1 + 1 = 0`). -/
def objOffset (contents : List Nat) (i : Nat) : Nat :=
  match findSub contents (objToken i) with
  | some k => k + 1
  | none => 0

/-- One rebuilt table entry `b"%010i 00000 n " % off` from `adjustPDF`. -/
def xrefEntry (contents : List Nat) (i : Nat) : List Nat :=
  pad10 (decRep (objOffset contents i)) ++ ascii " 00000 n "

/-- Python `sep.join(xs)`. -/
def joinSep (sep : List Nat) : List (List Nat) → List Nat
  | [] => []
  | [x] => x
  | x :: y :: rest => x ++ sep ++ joinSep sep (y :: rest)

/-- The rebuilt table `xref = b"\n".join(xrefLines)` from `adjustPDF`, with
entries for the ids `1, ..., objCount - 1` of the `while i < objCount` loop. -/
def buildXref (contents : List Nat) (objCount : Nat) : List Nat :=
  joinSep [10]
    ([ascii "xref", ascii "0 " ++ decRep objCount, ascii "0000000000 00001 f "]
      ++ (List.range' 1 (objCount - 1)).map (xrefEntry contents))

/-- The two splices at the end of `adjustPDF`: replace
`contents[startXREF:endXREF]` by the rebuilt table, then replace the bytes
between `startxref` and the (never-found) pattern `b"\n%%%%EOF"` by the new
table offset. -/
def adjustSplice (contents : List Nat) (objCount : Nat) : List Nat :=
  let sX := xrefStart contents
  let eX := xrefEnd contents
  let c2 := contents.take sX ++ buildXref contents objCount ++ contents.drop eX
  let sSX : Int := pyFind c2 (ascii "\nstartxref\n") eX + 11
  let eSX : Int := pyFind c2 (ascii "\n%%%%EOF") sSX.toNat
  pyTake c2 sSX ++ decRep sX ++ pyDrop c2 eSX

/-- Embedding of `adjustPDF` from `pdf.py`: rewrite the first old-style xref
table in place and then the `startxref` value; the only failures are Python's
implicit exceptions while parsing the object count (the caught length
assertion only prints). -/
def adjustPDF (contents : List Nat) : Except RepErr (List Nat) :=
  match parseObjCount contents with
  | .error e => .error e
  | .ok n => .ok (adjustSplice contents n)

/-! ## `verify_reusable.py`: `first_diff` and `common_suffix_start` -/

/-- Loop of `first_diff` from `verify_reusable.py`; `i` is the current index.
Byte values are reported as `Int` so that the `(n, -1, -1)` length-mismatch
result of the source is representable. -/
def firstDiffGo : List Nat → List Nat → Nat → Option (Nat × Int × Int)
  | x :: xs, y :: ys, i =>
    if x ≠ y then some (i, (x : Int), (y : Int)) else firstDiffGo xs ys (i + 1)
  | [], [], _ => none
  | _, _, i => some (i, -1, -1)

/-- Embedding of `first_diff` from `verify_reusable.py`. -/
def first_diff (a b : List Nat) : Option (Nat × Int × Int) := firstDiffGo a b 0

/-- Count of equal leading elements; applied to the reversed inputs this is
exactly the `while i <= m and a[-i] == b[-i]` loop of `common_suffix_start`
(its final `i - 1`). -/
def matchLenGo : List Nat → List Nat → Nat
  | x :: xs, y :: ys => if x = y then matchLenGo xs ys + 1 else 0
  | _, _ => 0

/-- Embedding of `common_suffix_start` from `verify_reusable.py`: scan from the
end backward while bytes agree, then return `len(a) - (i - 1)`. -/
def common_suffix_start (a b : List Nat) : Nat :=
  a.length - matchLenGo a.reverse b.reverse

/-! ## `pad_to_block.py`: `pad_file` -/

/-- Embedding of `pad_file` from `pad_to_block.py` (the bytes written back,
with the default `block = 64`): append zero bytes up to the next multiple of
64, or leave the data untouched when already aligned. -/
def pad_file (data : List Nat) : List Nat :=
  let block := 64
  let rem := data.length % block
  if rem = 0 then data
  else
    let padLen := (block - rem) % block
    if padLen = 0 then data else data ++ List.replicate padLen 0

/-! ## MD5 (RFC 1321), the weak hash the repository targets via `hashlib` -/

/-- Truncate to 32 bits. -/
def w32 (n : Nat) : Nat := n % 4294967296

/-- Rotate a 32-bit value left by `s`. -/
def rotl (x s : Nat) : Nat := w32 (x <<< s) ||| (x >>> (32 - s))

/-- The 64 MD5 sine constants `K[i] = floor(2^32 * abs(sin(i + 1)))`. -/
def md5K : List Nat :=
  [3614090360, 3905402710, 606105819, 3250441966, 4118548399, 1200080426,
   2821735955, 4249261313, 1770035416, 2336552879, 4294925233, 2304563134,
   1804603682, 4254626195, 2792965006, 1236535329, 4129170786, 3225465664,
   643717713, 3921069994, 3593408605, 38016083, 3634488961, 3889429448,
   568446438, 3275163606, 4107603335, 1163531501, 2850285829, 4243563512,
   1735328473, 2368359562, 4294588738, 2272392833, 1839030562, 4259657740,
   2763975236, 1272893353, 4139469664, 3200236656, 681279174, 3936430074,
   3572445317, 76029189, 3654602809, 3873151461, 530742520, 3299628645,
   4096336452, 1126891415, 2878612391, 4237533241, 1700485571, 2399980690,
   4293915773, 2240044497, 1873313359, 4264355552, 2734768916, 1309151649,
   4149444226, 3174756917, 718787259, 3951481745]

/-- The 64 MD5 per-round shift amounts. -/
def md5S : List Nat :=
  [7, 12, 17, 22, 7, 12, 17, 22, 7, 12, 17, 22, 7, 12, 17, 22,
   5, 9, 14, 20, 5, 9, 14, 20, 5, 9, 14, 20, 5, 9, 14, 20,
   4, 11, 16, 23, 4, 11, 16, 23, 4, 11, 16, 23, 4, 11, 16, 23,
   6, 10, 15, 21, 6, 10, 15, 21, 6, 10, 15, 21, 6, 10, 15, 21]

/-- The MD5 initial chaining state. -/
def md5IV : Nat × Nat × Nat × Nat :=
  (1732584193, 4023233417, 2562383102, 271733878)

/-- Little-endian word value of up to four bytes. -/
def leWord (l : List Nat) : Nat := l.foldr (fun b acc => b + 256 * acc) 0

/-- Split a 64-byte block into sixteen little-endian 32-bit words; the first
argument is recursion fuel. -/
def toWords : Nat → List Nat → List Nat
  | 0, _ => []
  | _, [] => []
  | f + 1, l => leWord (l.take 4) :: toWords f (l.drop 4)

/-- One MD5 round applied to the running state `(a, b, c, d)`. -/
def md5Round (M : List Nat) (st : Nat × Nat × Nat × Nat) (i : Nat) :
    Nat × Nat × Nat × Nat :=
  let (a, b, c, d) := st
  let f :=
    if i < 16 then (b &&& c) ||| ((b ^^^ 4294967295) &&& d)
    else if i < 32 then (d &&& b) ||| ((d ^^^ 4294967295) &&& c)
    else if i < 48 then b ^^^ c ^^^ d
    else c ^^^ (b ||| (d ^^^ 4294967295))
  let g :=
    if i < 16 then i
    else if i < 32 then (5 * i + 1) % 16
    else if i < 48 then (3 * i + 5) % 16
    else (7 * i) % 16
  let t := w32 (a + f + md5K.getD i 0 + M.getD g 0)
  (d, w32 (b + rotl t (md5S.getD i 0)), b, c)

/-- The MD5 compression function on one 64-byte block. -/
def md5Compress (st : Nat × Nat × Nat × Nat) (block : List Nat) :
    Nat × Nat × Nat × Nat :=
  let M := toWords 16 block
  let r := (List.range 64).foldl (md5Round M) st
  (w32 (st.1 + r.1), w32 (st.2.1 + r.2.1), w32 (st.2.2.1 + r.2.2.1),
   w32 (st.2.2.2 + r.2.2.2))

/-- Split a message into 64-byte blocks; the first argument is recursion
fuel (`fuel ≥ length` suffices). -/
def toBlocks : Nat → List Nat → List (List Nat)
  | 0, _ => []
  | _, [] => []
  | f + 1, l => l.take 64 :: toBlocks f (l.drop 64)

/-- The 64-byte blocks of a message. -/
def msgBlocks (m : List Nat) : List (List Nat) := toBlocks m.length m

/-- MD5 chaining state after absorbing the block-aligned message `m` starting
from state `st`. -/
def md5Blocks (st : Nat × Nat × Nat × Nat) (m : List Nat) :
    Nat × Nat × Nat × Nat :=
  (msgBlocks m).foldl md5Compress st

/-- MD5 padding tail for a message of length `len`: the `0x80` byte, zeros to
56 mod 64, and the 8-byte little-endian bit length. -/
def padTail (len : Nat) : List Nat :=
  let z := (120 - (len + 1) % 64) % 64
  let bitLen := (8 * len) % (2 ^ 64)
  128 :: (List.replicate z 0
    ++ (List.range 8).map (fun k => bitLen / (2 ^ (8 * k)) % 256))

/-- Padded MD5 message. -/
def md5Pad (m : List Nat) : List Nat := m ++ padTail m.length

/-- Little-endian byte serialization of a 32-bit word. -/
def wordBytes (x : Nat) : List Nat :=
  [x % 256, x / 256 % 256, x / 65536 % 256, x / 16777216 % 256]

/-- The 16-byte MD5 digest of `m` (the value `hashlib.md5(m).digest()`). -/
def md5 (m : List Nat) : List Nat :=
  let r := md5Blocks md5IV (md5Pad m)
  wordBytes r.1 ++ wordBytes r.2.1 ++ wordBytes r.2.2.1 ++ wordBytes r.2.2.2

/-- The artifact assembly `file1 = prefix1 + b"\n" + cleaned[192:]` from
`pdf.py`. -/
def buildFile (pfx cleaned : List Nat) : List Nat :=
  pfx ++ [10] ++ cleaned.drop 192

/-! ## C10: `pad_file` pads to the next multiple of 64 -/

/-- Auxiliary: `pad_file` leaves an already aligned byte string unchanged. -/
theorem pad_file_aligned (l : List Nat) (h : l.length % 64 = 0) :
    pad_file l = l := by
  simp [pad_file, h]

/-- C10: `pad_file` returns the original bytes followed by exactly
`(64 - len % 64) % 64` zero bytes, so the result's length is a multiple of 64
and the original content is preserved as a prefix; an already aligned input is
left completely unchanged, and the operation is idempotent. -/
theorem pad_file_pads_to_block (data : List Nat) :
    pad_file data = data ++ List.replicate ((64 - data.length % 64) % 64) 0
    ∧ (pad_file data).length % 64 = 0
    ∧ (pad_file data).take data.length = data
    ∧ (data.length % 64 = 0 → pad_file data = data)
    ∧ pad_file (pad_file data) = pad_file data := by
  have h1 : pad_file data = data ++ List.replicate ((64 - data.length % 64) % 64) 0 := by
    by_cases h : data.length % 64 = 0
    · simp [pad_file, h]
    · have hr : data.length % 64 < 64 := Nat.mod_lt _ (by norm_num)
      have hpl : ¬ ((64 - data.length % 64) % 64 = 0) := by omega
      simp [pad_file, h, hpl]
  have h2 : (pad_file data).length % 64 = 0 := by
    rw [h1]
    have hr : data.length % 64 < 64 := Nat.mod_lt _ (by norm_num)
    simp only [List.length_append, List.length_replicate]
    omega
  refine ⟨h1, h2, ?_, pad_file_aligned data, pad_file_aligned _ h2⟩
  rw [h1]
  exact List.take_left data _

/-- Witness for C10 at a concrete 70-byte input. -/
theorem pad_file_pads_to_block_witness :
    pad_file (List.replicate 70 1) = List.replicate 70 1 ++ List.replicate 58 0
    ∧ (pad_file (List.replicate 70 1)).length % 64 = 0 :=
  ⟨(pad_file_pads_to_block (List.replicate 70 1)).1,
   (pad_file_pads_to_block (List.replicate 70 1)).2.1⟩

/-! ## C3: `overlay` capacity boundary -/

/-- C3: with capacity `C = payload_len - prefix_len`, a linking block of
exactly `C` bytes is accepted, while ANY block whose length exceeds `C`
(`C + 1` in particular) fails with the too-large error reporting the actual
versus the maximum size; nothing is written on failure. -/
theorem overlay_capacity_boundary (tbs S1 S2 : List Nat) (plen ps L : Nat)
    (hfind : find_payload tbs = .ok (ps, L))
    (hplen : plen ≤ L)
    (hexact : S1.length = L - plen)
    (hover : L - plen < S2.length) :
    (∃ out, overlay tbs plen S1 = .ok out)
    ∧ overlay tbs plen S2
        = .error (.payloadTooLarge S2.length ((L : Int) - (plen : Int))) := by
  constructor
  · refine ⟨setSlice tbs (ps + plen) S1, ?_⟩
    unfold overlay
    rw [hfind]
    have hle : ¬ ((S1.length : Int) > (L : Int) - (plen : Int)) := by omega
    simp [hle]
  · unfold overlay
    rw [hfind]
    have hgt : (S2.length : Int) > (L : Int) - (plen : Int) := by omega
    simp [hgt]

/-- Concrete certificate-style template: a header, the marker OID, an OCTET
STRING of declared (short-form) length 16, the zeroed reserved payload, and a
trailer. -/
def tbsW : List Nat :=
  ascii "HDR" ++ OID ++ [4, 16] ++ List.replicate 16 0 ++ ascii "TAIL"

/-- Witness for C3: in `tbsW` the payload starts at 14 with capacity 16; with
prefix length 3 a 13-byte block fits exactly and a 14-byte block (capacity
plus one) is rejected. -/
theorem overlay_capacity_boundary_witness :
    (find_payload tbsW = .ok (14, 16) ∧ 3 ≤ 16
      ∧ (List.replicate 13 7).length = 16 - 3
      ∧ 16 - 3 < (List.replicate 14 7).length)
    ∧ (∃ out, overlay tbsW 3 (List.replicate 13 7) = .ok out)
    ∧ overlay tbsW 3 (List.replicate 14 7)
        = .error (.payloadTooLarge (List.replicate 14 7).length
            ((16 : Int) - (3 : Int))) :=
  ⟨⟨rfl, by decide, by decide, by decide⟩,
   (overlay_capacity_boundary tbsW (List.replicate 13 7) (List.replicate 14 7)
      3 14 16 rfl (by decide) (by decide) (by decide)).1,
   (overlay_capacity_boundary tbsW (List.replicate 13 7) (List.replicate 14 7)
      3 14 16 rfl (by decide) (by decide) (by decide)).2⟩

/-! ## C2: `overlay` frame effect -/

/-- C2: when `prefix_len + len(S) ≤ capacity` and the reserved region lies
inside the template, `overlay` succeeds, keeps the total length, copies `S`
to `[ps + plen, ps + plen + len(S))`, and leaves every byte strictly before
and strictly after that range (padding tail included) unchanged. -/
theorem overlay_frame (tbs S : List Nat) (plen ps L : Nat)
    (hfind : find_payload tbs = .ok (ps, L))
    (hcap : plen + S.length ≤ L)
    (hreg : ps + L ≤ tbs.length) :
    ∃ out, overlay tbs plen S = .ok out
      ∧ out.length = tbs.length
      ∧ (∀ k, k < ps + plen → out.getD k 0 = tbs.getD k 0)
      ∧ (∀ k, ps + plen + S.length ≤ k → out.getD k 0 = tbs.getD k 0)
      ∧ (∀ k, k < S.length → out.getD (ps + plen + k) 0 = S.getD k 0) := by
  have hoff : ps + plen + S.length ≤ tbs.length := by omega
  refine ⟨setSlice tbs (ps + plen) S, ?_, ?_, ?_, ?_, ?_⟩
  · unfold overlay
    rw [hfind]
    have hle : ¬ ((S.length : Int) > (L : Int) - (plen : Int)) := by omega
    simp [hle]
  · simp only [setSlice, List.length_append, List.length_take, List.length_drop]
    omega
  · intro k hk
    have hk2 : k < (tbs.take (ps + plen) ++ S).length := by
      simp only [List.length_append, List.length_take]; omega
    have hkt : k < (tbs.take (ps + plen)).length := by
      simp only [List.length_take]; omega
    rw [List.getD_eq_getElem?_getD, List.getD_eq_getElem?_getD, setSlice,
      List.getElem?_append_left hk2, List.getElem?_append_left hkt,
      List.getElem?_take_of_lt hk]
  · intro k hk
    have hge : (tbs.take (ps + plen) ++ S).length ≤ k := by
      simp only [List.length_append, List.length_take]; omega
    rw [List.getD_eq_getElem?_getD, List.getD_eq_getElem?_getD, setSlice,
      List.getElem?_append_right hge, List.getElem?_drop]
    congr 2
    simp only [List.length_append, List.length_take]
    omega
  · intro k hk
    have hk2 : ps + plen + k < (tbs.take (ps + plen) ++ S).length := by
      simp only [List.length_append, List.length_take]; omega
    have hget : (tbs.take (ps + plen)).length ≤ ps + plen + k := by
      simp only [List.length_take]; omega
    rw [List.getD_eq_getElem?_getD, List.getD_eq_getElem?_getD, setSlice,
      List.getElem?_append_left hk2, List.getElem?_append_right hget]
    congr 2
    simp only [List.length_take]
    omega

/-- Witness for C2 on the concrete template `tbsW` with a 3-byte prefix and a
4-byte block. -/
theorem overlay_frame_witness :
    (find_payload tbsW = .ok (14, 16) ∧ 3 + ([1, 2, 3, 4] : List Nat).length ≤ 16
      ∧ 14 + 16 ≤ tbsW.length)
    ∧ (∃ out, overlay tbsW 3 [1, 2, 3, 4] = .ok out
        ∧ out.length = tbsW.length
        ∧ (∀ k, k < 14 + 3 → out.getD k 0 = tbsW.getD k 0)
        ∧ (∀ k, 14 + 3 + ([1, 2, 3, 4] : List Nat).length ≤ k →
            out.getD k 0 = tbsW.getD k 0)
        ∧ (∀ k, k < ([1, 2, 3, 4] : List Nat).length →
            out.getD (14 + 3 + k) 0 = ([1, 2, 3, 4] : List Nat).getD k 0)) :=
  ⟨⟨rfl, by decide, by decide⟩,
   overlay_frame tbsW [1, 2, 3, 4] 3 14 16 rfl (by decide) (by decide)⟩

/-! ## C4: `find_payload` TLV length parsing (corrected) -/

/-- Concrete buffer whose OCTET STRING length is long-form with ONE length
byte (`0x81 0x05`): the claim predicts success at `(12, 5)`, the code
rejects it. -/
def cex4 : List Nat := OID ++ [4, 129, 5, 0, 0, 0, 0, 0]

/-- Counterexample to C4: a long-form length with one length byte is NOT
parsed; `find_payload` fails with the unsupported-length-form error instead
of returning the offset after the length field and the decoded capacity. -/
theorem find_payload_rejects_one_byte_longform :
    find_payload cex4 = .error .unsupportedLengthForm
    ∧ find_payload cex4 ≠ .ok (12, 5) :=
  ⟨rfl, by decide⟩

/-- C4 (amended): after the OID, a wrong tag fails with the tag-mismatch
error; a short-form length (high bit clear) returns the offset right after
the single length byte with that byte as capacity; a long-form length with
EXACTLY two length bytes returns the offset after the two length bytes with
the decoded big-endian capacity; every other long-form length (one length
byte included) fails with the unsupported-length-form error. -/
theorem find_payload_cases (buf : List Nat) (i tag : Nat)
    (hoid : findSub buf OID = some i)
    (htag : byteAt buf (i + 9) = .ok tag) :
    (tag ≠ 4 → find_payload buf = .error .tagMismatch)
    ∧ (tag = 4 → ∀ l1, byteAt buf (i + 10) = .ok l1 →
        ((l1 &&& 128 = 0 → find_payload buf = .ok (i + 11, l1))
         ∧ (l1 &&& 128 ≠ 0 → l1 &&& 127 = 2 →
             ∀ b2 b3, byteAt buf (i + 11) = .ok b2 → byteAt buf (i + 12) = .ok b3 →
               find_payload buf = .ok (i + 13, b2 * 256 + b3))
         ∧ (l1 &&& 128 ≠ 0 → l1 &&& 127 ≠ 2 →
             find_payload buf = .error .unsupportedLengthForm))) := by
  have hlen : OID.length = 9 := rfl
  constructor
  · intro hne
    simp only [find_payload, hoid, hlen, htag, if_pos hne]
  · intro he l1 hl1
    subst he
    refine ⟨?_, ?_, ?_⟩
    · intro hshort
      have hc : ¬ (l1 &&& 128 ≠ 0) := by simp [hshort]
      simp only [find_payload, hoid, hlen, htag, hl1]
      simp only [show (4 : Nat) ≠ 4 ↔ False by simp, if_false, if_neg hc]
    · intro hhigh h2 b2 b3 hb2 hb3
      simp only [find_payload, hoid, hlen, htag, hl1, hb2, hb3,
        if_pos hhigh, if_pos h2]
      simp only [show (4 : Nat) ≠ 4 ↔ False by simp, if_false]
    · intro hhigh hn2
      simp only [find_payload, hoid, hlen, htag, hl1, if_pos hhigh, if_neg hn2]
      simp

/-- Short-form sample: length byte `5`. -/
def bufShort : List Nat := OID ++ [4, 5, 1, 1, 1, 1, 1]

/-- Long-form sample with two length bytes: `0x82 0x01 0x04` encodes 260. -/
def bufLong2 : List Nat := OID ++ [4, 130, 1, 4] ++ List.replicate 3 9

/-- Long-form sample with one length byte: `0x81 0x07`. -/
def bufLong1 : List Nat := OID ++ [4, 129, 7, 0]

/-- Sample with a non-OCTET-STRING tag after the OID. -/
def bufTag : List Nat := OID ++ [5, 1]

/-- Witness for C4 (amended) on the four concrete buffers. -/
theorem find_payload_cases_witness :
    find_payload bufShort = .ok (11, 5)
    ∧ find_payload bufLong2 = .ok (13, 260)
    ∧ find_payload bufLong1 = .error .unsupportedLengthForm
    ∧ find_payload bufTag = .error .tagMismatch :=
  ⟨((find_payload_cases bufShort 0 4 rfl rfl).2 rfl 5 rfl).1 (by decide),
   ((find_payload_cases bufLong2 0 4 rfl rfl).2 rfl 130 rfl).2.1 (by decide)
      (by decide) 1 4 rfl rfl,
   ((find_payload_cases bufLong1 0 4 rfl rfl).2 rfl 129 rfl).2.2 (by decide)
      (by decide),
   (find_payload_cases bufTag 0 5 rfl rfl).1 (by decide)⟩

/-! ## C1: MD5 suffix extension preserves a collision -/

/-- The block decomposition does not depend on the fuel, once sufficient. -/
theorem toBlocks_fuel (f1 : Nat) :
    ∀ (f2 : Nat) (l : List Nat), l.length ≤ f1 → l.length ≤ f2 →
      toBlocks f1 l = toBlocks f2 l := by
  induction f1 with
  | zero =>
    intro f2 l h1 _
    have hl : l = [] := by
      cases l with
      | nil => rfl
      | cons x xs => simp at h1
    subst hl
    cases f2 <;> rfl
  | succ f ih =>
    intro f2 l h1 h2
    cases l with
    | nil => cases f2 <;> rfl
    | cons x xs =>
      cases f2 with
      | zero => simp at h2
      | succ g =>
        simp only [toBlocks]
        congr 1
        apply ih
        · simp only [List.length_drop, List.length_cons] at *
          omega
        · simp only [List.length_drop, List.length_cons] at *
          omega

/-- Unfolding step for `msgBlocks` on a nonempty message. -/
theorem msgBlocks_cons (l : List Nat) (hne : l ≠ []) :
    msgBlocks l = l.take 64 :: msgBlocks (l.drop 64) := by
  unfold msgBlocks
  cases l with
  | nil => exact absurd rfl hne
  | cons x xs =>
    simp only [List.length_cons, toBlocks]
    congr 1
    apply toBlocks_fuel
    · simp only [List.length_drop, List.length_cons]
      omega
    · exact le_refl _

/-- Auxiliary for `msgBlocks_append`, with an explicit bound on the length of
the aligned part. -/
theorem msgBlocks_append_aux (n : Nat) :
    ∀ (p s : List Nat), p.length ≤ n → p.length % 64 = 0 →
      msgBlocks (p ++ s) = msgBlocks p ++ msgBlocks s := by
  induction n with
  | zero =>
    intro p s h1 _
    have hp : p = [] := by
      cases p with
      | nil => rfl
      | cons x xs => simp at h1
    subst hp
    simp [msgBlocks, toBlocks]
  | succ n ih =>
    intro p s h1 hp
    cases p with
    | nil => simp [msgBlocks, toBlocks]
    | cons x xs =>
      have h64 : 64 ≤ (x :: xs).length := by
        simp only [List.length_cons] at *
        omega
      have hTake : ((x :: xs) ++ s).take 64 = (x :: xs).take 64 :=
        List.take_append_of_le_length h64
      have hDrop : ((x :: xs) ++ s).drop 64 = (x :: xs).drop 64 ++ s :=
        List.drop_append_of_le_length h64
      have ih1 : ((x :: xs).drop 64).length ≤ n := by
        simp only [List.length_drop, List.length_cons] at *
        omega
      have ih2 : ((x :: xs).drop 64).length % 64 = 0 := by
        simp only [List.length_drop, List.length_cons] at *
        omega
      have hstep := msgBlocks_cons ((x :: xs) ++ s) (by simp)
      rw [hstep, hTake, hDrop, ih _ s ih1 ih2,
        msgBlocks_cons (x :: xs) (by simp)]
      simp

/-- Splitting a message at a block boundary splits the blocks. -/
theorem msgBlocks_append (p s : List Nat) (hp : p.length % 64 = 0) :
    msgBlocks (p ++ s) = msgBlocks p ++ msgBlocks s :=
  msgBlocks_append_aux p.length p s (le_refl _) hp

/-- Absorbing `p ++ s` equals absorbing `s` from the state reached after `p`,
when `p` is block-aligned. -/
theorem md5Blocks_append (st : Nat × Nat × Nat × Nat) (p s : List Nat)
    (hp : p.length % 64 = 0) :
    md5Blocks st (p ++ s) = md5Blocks (md5Blocks st p) s := by
  unfold md5Blocks
  rw [msgBlocks_append p s hp, List.foldl_append]

/-- Core extension property: two equal-length block-aligned prefixes that
reach the same MD5 chaining state keep equal MD5 digests under any common
suffix. -/
theorem md5_ext (p1 p2 s : List Nat) (hlen : p1.length = p2.length)
    (halign : p1.length % 64 = 0)
    (hst : md5Blocks md5IV p1 = md5Blocks md5IV p2) :
    md5 (p1 ++ s) = md5 (p2 ++ s) := by
  have halign2 : p2.length % 64 = 0 := by rw [← hlen]; exact halign
  have hL : (p1 ++ s).length = (p2 ++ s).length := by
    simp [hlen]
  have e1 : md5Pad (p1 ++ s) = p1 ++ (s ++ padTail (p1 ++ s).length) := by
    unfold md5Pad
    rw [List.append_assoc]
  have e2 : md5Pad (p2 ++ s) = p2 ++ (s ++ padTail (p2 ++ s).length) := by
    unfold md5Pad
    rw [List.append_assoc]
  unfold md5
  rw [e1, e2, md5Blocks_append _ _ _ halign, md5Blocks_append _ _ _ halign2,
    hst, hL]

/-- C1: in the `pdf.py` artifact construction, given two equal-length
prefixes that collide in MD5 chaining state after the appended `b"\n"` (the
condition produced by the external collision search at exactly that offset),
the two final artifacts have equal MD5 digests while differing bytewise —
appending the same common suffix preserves the MD5 equality. -/
theorem pdf_artifact_collision (pfx1 pfx2 cleaned : List Nat)
    (hlen : pfx1.length = pfx2.length)
    (halign : (pfx1.length + 1) % 64 = 0)
    (hcoll : md5Blocks md5IV (pfx1 ++ [10]) = md5Blocks md5IV (pfx2 ++ [10]))
    (hne : pfx1 ≠ pfx2) :
    md5 (buildFile pfx1 cleaned) = md5 (buildFile pfx2 cleaned)
    ∧ buildFile pfx1 cleaned ≠ buildFile pfx2 cleaned := by
  have e1 : buildFile pfx1 cleaned = (pfx1 ++ [10]) ++ cleaned.drop 192 := by
    unfold buildFile
    rw [List.append_assoc]
  have e2 : buildFile pfx2 cleaned = (pfx2 ++ [10]) ++ cleaned.drop 192 := by
    unfold buildFile
    rw [List.append_assoc]
  constructor
  · rw [e1, e2]
    apply md5_ext
    · simp [hlen]
    · simp only [List.length_append, List.length_cons, List.length_nil]
      exact halign
    · exact hcoll
  · rw [e1, e2]
    intro hc
    have h1 : pfx1 ++ [10] = pfx2 ++ [10] := List.append_cancel_right hc
    exact hne (List.append_cancel_right h1)

/-- First message of the classical Wang et al. two-block MD5 collision. -/
def wangA : List Nat :=
  [209, 49, 221, 2, 197, 230, 238, 196, 105, 61, 154, 6, 152, 175, 249, 92,
   47, 202, 181, 135, 18, 70, 126, 171, 64, 4, 88, 62, 184, 251, 127, 137,
   85, 173, 52, 6, 9, 244, 179, 2, 131, 228, 136, 131, 37, 113, 65, 90,
   8, 81, 37, 232, 247, 205, 201, 159, 217, 29, 189, 242, 128, 55, 60, 91,
   216, 130, 62, 49, 86, 52, 143, 91, 174, 109, 172, 212, 54, 201, 25, 198,
   221, 83, 226, 180, 135, 218, 3, 253, 2, 57, 99, 6, 210, 72, 205, 160,
   233, 159, 51, 66, 15, 87, 126, 232, 206, 84, 182, 112, 128, 168, 13, 30,
   198, 152, 33, 188, 182, 168, 131, 147, 150, 249, 101, 43, 111, 247, 42, 112]

/-- Second message of the classical Wang et al. two-block MD5 collision
(differs from the first in the six bytes 19, 45, 59, 83, 109 and 123). -/
def wangB : List Nat :=
  [209, 49, 221, 2, 197, 230, 238, 196, 105, 61, 154, 6, 152, 175, 249, 92,
   47, 202, 181, 7, 18, 70, 126, 171, 64, 4, 88, 62, 184, 251, 127, 137,
   85, 173, 52, 6, 9, 244, 179, 2, 131, 228, 136, 131, 37, 241, 65, 90,
   8, 81, 37, 232, 247, 205, 201, 159, 217, 29, 189, 114, 128, 55, 60, 91,
   216, 130, 62, 49, 86, 52, 143, 91, 174, 109, 172, 212, 54, 201, 25, 198,
   221, 83, 226, 52, 135, 218, 3, 253, 2, 57, 99, 6, 210, 72, 205, 160,
   233, 159, 51, 66, 15, 87, 126, 232, 206, 84, 182, 112, 128, 40, 13, 30,
   198, 152, 33, 188, 182, 168, 131, 147, 150, 249, 101, 171, 111, 247, 42, 112]

/-- A colliding artifact prefix: a Wang message padded with zeros so that the
appended `b"\n"` lands exactly on a block boundary. -/
def wpfx1 : List Nat := wangA ++ List.replicate 63 0

/-- The second colliding artifact prefix. -/
def wpfx2 : List Nat := wangB ++ List.replicate 63 0

set_option maxRecDepth 100000 in
set_option maxHeartbeats 1000000 in
/-- Witness for C1: the two concrete colliding prefixes satisfy every
hypothesis, so the two concrete artifacts collide in MD5 yet differ. -/
theorem pdf_artifact_collision_witness :
    (wpfx1.length = wpfx2.length
      ∧ (wpfx1.length + 1) % 64 = 0
      ∧ md5Blocks md5IV (wpfx1 ++ [10]) = md5Blocks md5IV (wpfx2 ++ [10])
      ∧ wpfx1 ≠ wpfx2)
    ∧ (md5 (buildFile wpfx1 (List.replicate 200 65))
        = md5 (buildFile wpfx2 (List.replicate 200 65))
       ∧ buildFile wpfx1 (List.replicate 200 65)
          ≠ buildFile wpfx2 (List.replicate 200 65)) :=
  ⟨⟨rfl, rfl, rfl, by decide⟩,
   pdf_artifact_collision wpfx1 wpfx2 (List.replicate 200 65)
     rfl rfl rfl (by decide)⟩

/-! ## C9: the verifier's first-difference and common-suffix scans -/

/-- A difference of `a` and `b` at index `i`: either both bytes exist and
differ, or `i` is the length of the shorter string and the lengths differ. -/
def diffAt (a b : List Nat) (i : Nat) : Prop :=
  (i < a.length ∧ i < b.length ∧ a.getD i 0 ≠ b.getD i 0)
  ∨ (i = min a.length b.length ∧ a.length ≠ b.length)

/-- The scan loop returns `none` exactly on equal inputs. -/
theorem firstDiffGo_none :
    ∀ (a b : List Nat) (i0 : Nat), firstDiffGo a b i0 = none ↔ a = b := by
  intro a
  induction a with
  | nil =>
    intro b i0
    cases b <;> simp [firstDiffGo]
  | cons xx xs ih =>
    intro b i0
    cases b with
    | nil => simp [firstDiffGo]
    | cons yy ys =>
      by_cases hxy : xx = yy
      · subst hxy
        simp [firstDiffGo, ih]
      · simp [firstDiffGo, if_pos hxy, hxy]

/-- The scan loop finds the leftmost difference: all earlier positions hold
equal bytes on both sides, and the reported position is a difference. -/
theorem firstDiffGo_some :
    ∀ (a b : List Nat) (i0 i : Nat) (x y : Int),
      firstDiffGo a b i0 = some (i, x, y) →
      i0 ≤ i
      ∧ (∀ j, j < i - i0 → j < a.length ∧ j < b.length ∧ a.getD j 0 = b.getD j 0)
      ∧ diffAt a b (i - i0) := by
  intro a
  induction a with
  | nil =>
    intro b i0 i x y h
    cases b with
    | nil => simp [firstDiffGo] at h
    | cons yy ys =>
      simp only [firstDiffGo, Option.some.injEq, Prod.mk.injEq] at h
      obtain ⟨h1, -, -⟩ := h
      subst h1
      refine ⟨le_refl _, fun j hj => by omega, Or.inr ?_⟩
      simp
  | cons xx xs ih =>
    intro b i0 i x y h
    cases b with
    | nil =>
      simp only [firstDiffGo, Option.some.injEq, Prod.mk.injEq] at h
      obtain ⟨h1, -, -⟩ := h
      subst h1
      refine ⟨le_refl _, fun j hj => by omega, Or.inr ?_⟩
      simp
    | cons yy ys =>
      by_cases hxy : xx = yy
      · subst hxy
        simp only [firstDiffGo, ne_eq, not_true_eq_false, if_false] at h
        obtain ⟨h0, hall, hdiff⟩ := ih ys (i0 + 1) i x y h
        have hi : i0 ≤ i := by omega
        have hm : i - i0 = (i - (i0 + 1)) + 1 := by omega
        refine ⟨hi, ?_, ?_⟩
        · intro j hj
          cases j with
          | zero => simp
          | succ jj =>
            have := hall jj (by omega)
            simp only [List.length_cons, List.getD_cons_succ]
            exact ⟨by omega, by omega, this.2.2⟩
        · rw [hm]
          rcases hdiff with ⟨hd1, hd2, hd3⟩ | ⟨hd1, hd2⟩
          · exact Or.inl ⟨by simp; omega, by simp; omega,
              by simpa [List.getD_cons_succ] using hd3⟩
          · refine Or.inr ⟨?_, by simp; omega⟩
            simp only [List.length_cons]
            omega
      · simp only [firstDiffGo, ne_eq, hxy, not_false_eq_true, if_true,
          Option.some.injEq, Prod.mk.injEq] at h
        obtain ⟨h1, h2, h3⟩ := h
        subst h1
        refine ⟨le_refl _, fun j hj => by omega, Or.inl ?_⟩
        simp only [Nat.sub_self, List.length_cons, List.getD_cons_zero]
        exact ⟨by omega, by omega, hxy⟩

/-- The matching-length loop is bounded by both inputs and the matched
leading segments agree. -/
theorem matchLenGo_spec :
    ∀ (r1 r2 : List Nat),
      matchLenGo r1 r2 ≤ r1.length ∧ matchLenGo r1 r2 ≤ r2.length
      ∧ r1.take (matchLenGo r1 r2) = r2.take (matchLenGo r1 r2) := by
  intro r1
  induction r1 with
  | nil => intro r2; simp [matchLenGo]
  | cons x xs ih =>
    intro r2
    cases r2 with
    | nil => simp [matchLenGo]
    | cons y ys =>
      by_cases h : x = y
      · obtain ⟨h1, h2, h3⟩ := ih ys
        simp only [matchLenGo, if_pos h, List.length_cons, List.take_succ_cons]
        exact ⟨by omega, by omega, by rw [h, h3]⟩
      · simp [matchLenGo, if_neg h]

/-- The matching-length loop is maximal: any agreeing leading segment is at
most as long. -/
theorem matchLenGo_max :
    ∀ (r1 r2 : List Nat) (j : Nat),
      j ≤ r1.length → j ≤ r2.length → r1.take j = r2.take j →
      j ≤ matchLenGo r1 r2 := by
  intro r1
  induction r1 with
  | nil =>
    intro r2 j h1 _ _
    have : j = 0 := by simpa using h1
    subst this
    exact Nat.zero_le _
  | cons x xs ih =>
    intro r2 j h1 h2 h3
    cases r2 with
    | nil =>
      have : j = 0 := by simpa using h2
      subst this
      exact Nat.zero_le _
    | cons y ys =>
      cases j with
      | zero => exact Nat.zero_le _
      | succ k =>
        simp only [List.take_succ_cons, List.cons.injEq] at h3
        obtain ⟨hxy, htail⟩ := h3
        have := ih ys k (by simpa using h1) (by simpa using h2) htail
        simp only [matchLenGo, if_pos hxy]
        omega

/-- C9: `first_diff` reports `none` exactly on equal inputs and otherwise the
smallest differing index (all earlier bytes exist on both sides and agree),
and `common_suffix_start` returns the start offset in `a` of the longest
common trailing suffix — `len(a)` minus the suffix length, the suffix being
common and maximal. -/
theorem verifier_diff_suffix (a b : List Nat) :
    (first_diff a b = none ↔ a = b)
    ∧ (∀ i x y, first_diff a b = some (i, x, y) →
        diffAt a b i
        ∧ ∀ j, j < i → j < a.length ∧ j < b.length ∧ a.getD j 0 = b.getD j 0)
    ∧ (a.length - common_suffix_start a b ≤ b.length
       ∧ a.drop (common_suffix_start a b)
          = b.drop (b.length - (a.length - common_suffix_start a b))
       ∧ ∀ j, j ≤ a.length → j ≤ b.length →
           a.drop (a.length - j) = b.drop (b.length - j) →
           j ≤ a.length - common_suffix_start a b) := by
  refine ⟨firstDiffGo_none a b 0, ?_, ?_⟩
  · intro i x y h
    obtain ⟨-, hall, hdiff⟩ := firstDiffGo_some a b 0 i x y h
    rw [Nat.sub_zero] at hdiff
    exact ⟨hdiff, fun j hj => hall j (by omega)⟩
  · obtain ⟨hk1, hk2, hk3⟩ := matchLenGo_spec a.reverse b.reverse
    rw [List.length_reverse] at hk1 hk2
    have hcss : common_suffix_start a b
        = a.length - matchLenGo a.reverse b.reverse := rfl
    have hak : a.length - (a.length - matchLenGo a.reverse b.reverse)
        = matchLenGo a.reverse b.reverse := by omega
    refine ⟨by rw [hcss, hak]; exact hk2, ?_, ?_⟩
    · rw [hcss, hak]
      have ea : a.drop (a.length - matchLenGo a.reverse b.reverse)
          = (a.reverse.take (matchLenGo a.reverse b.reverse)).reverse := by
        rw [List.take_reverse, List.reverse_reverse]
      have eb : b.drop (b.length - matchLenGo a.reverse b.reverse)
          = (b.reverse.take (matchLenGo a.reverse b.reverse)).reverse := by
        rw [List.take_reverse, List.reverse_reverse]
      rw [ea, eb, hk3]
    · intro j hj1 hj2 hdrop
      have htake : a.reverse.take j = b.reverse.take j := by
        rw [List.take_reverse, List.take_reverse, hdrop]
      have := matchLenGo_max a.reverse b.reverse j
        (by rw [List.length_reverse]; exact hj1)
        (by rw [List.length_reverse]; exact hj2) htake
      rw [hcss, hak]
      exact this

/-- Concrete pair differing at index 2 with a one-byte common suffix. -/
def d9a : List Nat := [1, 2, 5, 9]

/-- The second element of the concrete pair. -/
def d9b : List Nat := [1, 2, 7, 9]

/-- Witness for C9 on the concrete pair. -/
theorem verifier_diff_suffix_witness :
    diffAt d9a d9b 2
    ∧ (1 < d9a.length ∧ 1 < d9b.length ∧ d9a.getD 1 0 = d9b.getD 1 0)
    ∧ d9a.drop (common_suffix_start d9a d9b)
        = d9b.drop (d9b.length - (d9a.length - common_suffix_start d9a d9b))
    ∧ 1 ≤ d9a.length - common_suffix_start d9a d9b := by
  obtain ⟨h1, h2, h3⟩ := verifier_diff_suffix d9a d9b
  have hd := h2 2 5 7 rfl
  exact ⟨hd.1, hd.2 1 (by omega), h3.2.1,
    h3.2.2 1 (by decide) (by decide) (by decide)⟩

/-! ## C5: the xref length check only prints, it never fails -/

/-- Concrete input whose original xref block (14 bytes of junk) cannot match
the rebuilt fixed-width table's length. -/
def pdfC5 : List Nat :=
  ascii "A\n1 0 obj\nxx\n2 0 obj\nyy\nxref\n0 3\nAAAA \n\ntrailer\nstartxref\n5\nE"

/-- What `adjustPDF` actually returns on `pdfC5`. -/
def pdfC5out : List Nat :=
  ascii "A\n1 0 obj\nxx\n2 0 obj\nyy\nxref\n0 3\n0000000000 00001 f \n0000000002 00000 n \n0000000013 00000 n \n\ntrailer\nstartxref\n24E"

set_option maxRecDepth 100000 in
/-- Counterexample to C5: the rebuilt table's length differs from the original
block's, yet repair succeeds — with an output of different total length —
instead of failing with a length-mismatch error. -/
theorem adjustPDF_length_mismatch_proceeds :
    (buildXref pdfC5 3).length ≠ (origXref pdfC5).length
    ∧ adjustPDF pdfC5 = .ok pdfC5out
    ∧ pdfC5out.length ≠ pdfC5.length :=
  ⟨by decide, by decide, by decide⟩

/-- C5 (amended): the repair rewrites the table with fixed-width entries but
does not enforce the original byte length: whenever the object count parses,
`adjustPDF` succeeds with the spliced result even when the rebuilt table's
length differs from the original block's (the source catches its own
assertion, prints both tables and proceeds). -/
theorem adjustPDF_no_length_guard (contents : List Nat) (n : Nat)
    (hn : parseObjCount contents = .ok n)
    (hmm : (buildXref contents n).length ≠ (origXref contents).length) :
    adjustPDF contents = .ok (adjustSplice contents n) := by
  unfold adjustPDF
  rw [hn]

/-- Concrete mismatching input for the C5 witness. -/
def cex5w : List Nat := ascii "A\n1 0 obj\nB\nxref\n0 2\nJJ \n\nstartxref\n1\nE"

set_option maxRecDepth 100000 in
/-- Witness for C5 (amended) on `cex5w`. -/
theorem adjustPDF_no_length_guard_witness :
    parseObjCount cex5w = .ok 2
    ∧ (buildXref cex5w 2).length ≠ (origXref cex5w).length
    ∧ adjustPDF cex5w = .ok (adjustSplice cex5w 2) :=
  ⟨rfl, by decide, adjustPDF_no_length_guard cex5w 2 rfl (by decide)⟩

/-! ## C6: an absent object records a bogus zero offset, no error -/

/-- Concrete input declaring 3 objects but containing no `\n2 0 obj\n`
token. -/
def pdfC6 : List Nat :=
  ascii "Q\n1 0 obj\nbody\nxref\n0 3\n0000000000 65535 f \n0000000002 00000 n \n0000000002 00000 n \n\ntrailer\nstartxref\n9\n%%EOF\n"

/-- What `adjustPDF` actually returns on `pdfC6`: the entry for object 2 is
the bogus `0000000000 00000 n `. -/
def pdfC6out : List Nat :=
  ascii "Q\n1 0 obj\nbody\nxref\n0 3\n0000000000 00001 f \n0000000002 00000 n \n0000000000 00000 n \n\ntrailer\nstartxref\n15\n"

set_option maxRecDepth 100000 in
/-- Counterexample to C6: object id 2 is absent, yet repair succeeds and
records a zero offset for it instead of failing with an object-not-found
error. -/
theorem adjustPDF_absent_object_no_error :
    findSub pdfC6 (objToken 2) = none
    ∧ adjustPDF pdfC6 = .ok pdfC6out
    ∧ findSub pdfC6out (ascii "0000000000 00000 n ") ≠ none :=
  ⟨by decide, by decide, by decide⟩

/-- Any member of a joined list occurs contiguously in the join. -/
theorem joinSep_mem (sep : List Nat) (xs : List (List Nat)) :
    ∀ a : List Nat, a ∈ xs →
      ∃ pre post, joinSep sep xs = pre ++ (a ++ post) := by
  induction xs with
  | nil =>
    intro a ha
    simp at ha
  | cons x rest ih =>
    intro a ha
    cases rest with
    | nil =>
      have hax : a = x := by simpa using ha
      subst hax
      exact ⟨[], [], by simp [joinSep]⟩
    | cons y t =>
      rcases List.mem_cons.mp ha with h | h
      · subst h
        exact ⟨[], sep ++ joinSep sep (y :: t), by simp [joinSep]⟩
      · obtain ⟨pre, post, hpp⟩ := ih a h
        refine ⟨x ++ sep ++ pre, post, ?_⟩
        simp [joinSep, hpp]

/-- C6 (amended): the table is recomputed by re-scanning for each object
token `\n<N> 0 obj\n` and recording `found index + 1`; when an expected id in
`1, ..., objCount - 1` is absent the scan yields `-1`, so the recorded offset
is the bogus `0` and the rebuilt table contains the entry
`0000000000 00000 n ` — repair records that entry rather than failing. -/
theorem xref_rescan_absent (contents : List Nat) (i n : Nat)
    (h1 : 1 ≤ i) (h2 : i < n)
    (habsent : findSub contents (objToken i) = none) :
    objOffset contents i = 0
    ∧ xrefEntry contents i = ascii "0000000000 00000 n "
    ∧ ∃ pre post,
        buildXref contents n = pre ++ (ascii "0000000000 00000 n " ++ post) := by
  have ho : objOffset contents i = 0 := by
    simp [objOffset, habsent]
  have he : xrefEntry contents i = ascii "0000000000 00000 n " := by
    rw [xrefEntry, ho]
    rfl
  refine ⟨ho, he, ?_⟩
  have hmem : xrefEntry contents i ∈
      ([ascii "xref", ascii "0 " ++ decRep n, ascii "0000000000 00001 f "]
        ++ (List.range' 1 (n - 1)).map (xrefEntry contents)) := by
    apply List.mem_append_right
    apply List.mem_map_of_mem
    rw [List.mem_range'_1]
    omega
  obtain ⟨pre, post, hpp⟩ := joinSep_mem [10] _ _ hmem
  rw [he] at hpp
  exact ⟨pre, post, hpp⟩

/-- Witness for C6 (amended): a buffer with no object tokens at all. -/
theorem xref_rescan_absent_witness :
    objOffset (ascii "hello") 1 = 0
    ∧ xrefEntry (ascii "hello") 1 = ascii "0000000000 00000 n "
    ∧ ∃ pre post,
        buildXref (ascii "hello") 3
          = pre ++ (ascii "0000000000 00000 n " ++ post) :=
  xref_rescan_absent (ascii "hello") 1 3 (by decide) (by decide) (by decide)

/-! ## C7: the startxref rewrite destroys the trailing bytes -/

/-- Concrete well-formed-style input ending in `%%EOF`. -/
def pdfC7 : List Nat :=
  ascii "%PDF-1.4\n1 0 obj\nDD\nendobj\n2 0 obj\nEE\nendobj\nxref\n0 3\n0000000000 65535 f \n0000000009 00000 n \n0000000026 00000 n \n\ntrailer\n<< /Size 3 >>\nstartxref\n43\n%%EOF\n"

/-- What `adjustPDF` actually returns on `pdfC7`: the `startxref` value is
rewritten to the new table offset 45, but everything after it except the last
byte is gone — the `%%EOF` marker included. -/
def pdfC7out : List Nat :=
  ascii "%PDF-1.4\n1 0 obj\nDD\nendobj\n2 0 obj\nEE\nendobj\nxref\n0 3\n0000000000 00001 f \n0000000009 00000 n \n0000000027 00000 n \n\ntrailer\n<< /Size 3 >>\nstartxref\n45\n"

set_option maxRecDepth 100000 in
/-- C7: on `pdfC7` the rewritten `startxref` value 45 is exactly the offset
at which the token `xref` appears in the final bytes, but — because the
source searches for the never-occurring literal `\n%%%%EOF` (four percent
signs) and so finds `-1` — the bytes following the `startxref` value are NOT
preserved: the input's `%%EOF` marker is absent from the output. -/
theorem startxref_tail_lost :
    adjustPDF pdfC7 = .ok pdfC7out
    ∧ xrefStart pdfC7 = 45
    ∧ findSub pdfC7 (ascii "%%EOF") ≠ none
    ∧ findSub pdfC7out (ascii "%%EOF") = none
    ∧ findSub pdfC7out (ascii "xref") = some 45
    ∧ findSub pdfC7out (ascii "startxref\n45") ≠ none :=
  ⟨by decide, by decide, by decide, by decide, by decide, by decide⟩

/-! ## C8: repair is not idempotent in general -/

/-- Concrete input whose object-2 token lies after the xref table while the
table rewrite changes the table's byte length. -/
def pdfC8 : List Nat :=
  ascii "A\n1 0 obj\nxx\nxref\n0 3\nAAAA \n\n2 0 obj\nZZ\nstartxref\n5\nE"

/-- First repair of `pdfC8`: object 2 recorded at offset 29. -/
def pdfC8a : List Nat :=
  ascii "A\n1 0 obj\nxx\nxref\n0 3\n0000000000 00001 f \n0000000002 00000 n \n0000000029 00000 n \n\n2 0 obj\nZZ\nstartxref\n13E"

/-- Second repair: the longer table shifted object 2 to offset 83, so the
output changes again. -/
def pdfC8b : List Nat :=
  ascii "A\n1 0 obj\nxx\nxref\n0 3\n0000000000 00001 f \n0000000002 00000 n \n0000000083 00000 n \n\n2 0 obj\nZZ\nstartxref\n13E"

set_option maxRecDepth 100000 in
/-- Counterexample to C8: both applications succeed, yet applying the repair
to its own output returns a different byte string. -/
theorem adjustPDF_not_idempotent :
    adjustPDF pdfC8 = .ok pdfC8a
    ∧ adjustPDF pdfC8a = .ok pdfC8b
    ∧ pdfC8b ≠ pdfC8a :=
  ⟨by decide, by decide, by decide⟩

/-- Concrete standard-layout template: all object tokens precede the xref
table. -/
def pdfX0 : List Nat :=
  ascii "%PDF-1.4\n1 0 obj\nAA\nendobj\n2 0 obj\nBB\nendobj\n3 0 obj\nCC\nendobj\nxref\n0 4\n0000000000 65535 f \n0000000009 00000 n \n0000000026 00000 n \n0000000043 00000 n \n\ntrailer\n<< /Root 1 0 R /Size 4 >>\nstartxref\n60\n%%EOF\n"

/-- The repaired form of `pdfX0`. -/
def pdfY0 : List Nat :=
  ascii "%PDF-1.4\n1 0 obj\nAA\nendobj\n2 0 obj\nBB\nendobj\n3 0 obj\nCC\nendobj\nxref\n0 4\n0000000000 00001 f \n0000000009 00000 n \n0000000027 00000 n \n0000000045 00000 n \n\ntrailer\n<< /Root 1 0 R /Size 4 >>\nstartxref\n63\n"

set_option maxRecDepth 100000 in
/-- C8 (amended): on a standard layout whose object tokens all precede the
table, a second application of the repair returns its own output unchanged. -/
theorem adjustPDF_second_pass_fixed :
    adjustPDF pdfX0 = .ok pdfY0 ∧ adjustPDF pdfY0 = .ok pdfY0 :=
  ⟨by decide, by decide⟩

end MD5Repo
